import Mathlib

/-!
# Verification of the rclone.js process-invocation and self-update core

Shallow embedding of `src/rclone.js` (the JavaScript binding around the
external `rclone` command-line tool).  JavaScript values that flow through
the argument marshaller are modelled by the inductive `JValue`; effectful
operations (spawning a process, fetching a URL, writing to the filesystem)
are modelled as explicit descriptions of the call the code makes, so the
theorems talk about the argument vector handed to `spawn`, the URL handed
to `https.get`, and the filesystem effects of extraction.
-/

namespace RcloneJS

/-- JavaScript runtime values as they appear in the API surface of
`src/rclone.js`: strings, numbers, booleans, `null`, `undefined`, arrays
and plain objects (modelled as their ordered property list, as produced by
`Object.entries`). -/
inductive JValue where
  | vStr : String → JValue
  | vNum : Int → JValue
  | vBool : Bool → JValue
  | vNull : JValue
  | vUndefined : JValue
  | vArr : List JValue → JValue
  | vObj : List (String × JValue) → JValue

/-- JavaScript truthiness (`!!v`): `false`, `0`, the empty string, `null`
and `undefined` are falsy; every object and array is truthy. -/
def jsTruthy : JValue → Bool
  | .vStr s => !(s == "")
  | .vNum n => !(n == 0)
  | .vBool b => b
  | .vNull => false
  | .vUndefined => false
  | .vArr _ => true
  | .vObj _ => true

/-- The test `v.constructor === Object`: true exactly for plain objects.
(`null`/`undefined` would throw on property access in JavaScript, but every
use in the source is guarded by `!!v &&`, so a total function returning
`false` there is faithful.) -/
def hasObjectConstructor : JValue → Bool
  | .vObj _ => true
  | _ => false

/-- `typeof v === "boolean"`. -/
def isBoolean : JValue → Bool
  | .vBool _ => true
  | _ => false

/-- `v === false`: strict equality against the boolean literal `false`. -/
def isFalseLiteral : JValue → Bool
  | .vBool false => true
  | _ => false

mutual
/-- JavaScript string conversion as performed by the template literal
`` `${ value }` ``. -/
def jsToString : JValue → String
  | .vStr s => s
  | .vNum n => toString n
  | .vBool true => "true"
  | .vBool false => "false"
  | .vNull => "null"
  | .vUndefined => "undefined"
  | .vArr xs => jsArrayToString xs
  | .vObj _ => "[object Object]"

/-- `Array.prototype.toString`: elements joined by `","`, with `null` and
`undefined` elements rendered as the empty string. -/
def jsArrayToString : List JValue → String
  | [] => ""
  | [x] => jsArrayElemToString x
  | x :: xs => jsArrayElemToString x ++ "," ++ jsArrayToString xs

/-- One element of an array under `Array.prototype.join`. -/
def jsArrayElemToString : JValue → String
  | .vNull => ""
  | .vUndefined => ""
  | v => jsToString v
end

/-! ## Platform resolver (src/rclone.js lines 6–36)

The two `switch` statements rewrite `process.platform` and `process.arch`
into rclone's release-naming vocabulary.  JavaScript `switch` cases fall
through when they do not end in `break`:

* the `"sunos"` case assigns `"solaris"` and then — lacking a `break` —
  falls into the `"win32"` case body, which overwrites it with
  `"windows"` before reaching `default: break`;
* the `"x32"` case assigns `"386"` and then falls into the `"x64"` case
  body, which overwrites it with `"amd64"`.

The definitions below embed the value actually computed by the source,
fall-through included. -/

/-- Result of the `switch (platform)` statement at src/rclone.js:8–22. -/
def resolvePlatform (p : String) : String :=
  if p = "darwin" then "osx"
  else if p = "freebsd" ∨ p = "linux" ∨ p = "openbsd" then p
  else if p = "sunos" then "windows"
  else if p = "win32" then "windows"
  else p

/-- Result of the `switch (arch)` statement at src/rclone.js:24–36. -/
def resolveArch (a : String) : String :=
  if a = "arm" ∨ a = "arm64" ∨ a = "mips" ∨ a = "mipsel" then a
  else if a = "x32" then "amd64"
  else if a = "x64" then "amd64"
  else a

/-- `RCLONE_DIR = join(__dirname, "bin")` (src/rclone.js:38), with the
module directory passed explicitly. -/
def RCLONE_DIR (dirname : String) : String := dirname ++ "/bin"

/-- `DEFAULT_RCLONE_EXECUTABLE` (src/rclone.js:39): `rclone` inside
`RCLONE_DIR`, with an `.exe` suffix on the windows-mapped platform.
`platform` is the already-resolved release platform name. -/
def DEFAULT_RCLONE_EXECUTABLE (dirname platform : String) : String :=
  RCLONE_DIR dirname ++ "/rclone" ++ (if platform = "windows" then ".exe" else "")

/-! ## Flag marshaller and process invoker (src/rclone.js:52–70) -/

/-- One spawned subprocess, described by the call made to
`child_process.spawn`: the executable path and the argument vector. -/
structure SpawnCall where
  executable : String
  args : List JValue

/-- `Object.entries` of a flag object; empty for non-objects. -/
def objEntries : JValue → List (String × JValue)
  | .vObj es => es
  | _ => []

/-- The body of the `forEach` at src/rclone.js:55–63: for one `(key, value)`
entry, rename the key to `no-<key>` when `value === false`, push `--<key>`,
and push `` `${ value }` `` when the value is not a boolean. -/
def pushFlagTokens (args : List JValue) (key : String) (value : JValue) :
    List JValue :=
  let key := if isFalseLiteral value then "no-" ++ key else key
  let args := args ++ [JValue.vStr ("--" ++ key)]
  if isBoolean value then args else args ++ [JValue.vStr (jsToString value)]

/-- The argument processing of `api` (src/rclone.js:52–67): pop the last
argument (`undefined` when the list is empty, as `Array.prototype.pop`
returns); when it is truthy with constructor `Object`, expand its entries
as flag tokens onto the remaining positionals; otherwise push it back. -/
def apiArgs (args : List JValue) : List JValue :=
  let flags := (args.getLast?).getD JValue.vUndefined
  let rest := args.dropLast
  if jsTruthy flags && hasObjectConstructor flags then
    (objEntries flags).foldl (fun a kv => pushFlagTokens a kv.1 kv.2) rest
  else
    rest ++ [flags]

/-- The `api` function (src/rclone.js:52–70): marshal the arguments and
spawn the resolved executable with them.  The resolved executable path is
passed explicitly (in the source it is the module-level
`RCLONE_EXECUTABLE`). -/
def api (exe : String) (args : List JValue) : SpawnCall :=
  ⟨exe, apiArgs args⟩

/-- Claim-side description of the flag tokens, following the spec's
emission table: `value === false` emits the single token `--no-<key>`;
`value === true` emits the single token `--<key>`; any other value emits
`--<key>` followed by `String(value)`. -/
def specFlagTokens (entries : List (String × JValue)) : List JValue :=
  entries.flatMap fun kv =>
    match kv.2 with
    | .vBool false => [JValue.vStr ("--no-" ++ kv.1)]
    | .vBool true => [JValue.vStr ("--" ++ kv.1)]
    | v => [JValue.vStr ("--" ++ kv.1), JValue.vStr (jsToString v)]

/-! ## Single-resolution deferred (JavaScript `Promise` settlement) -/

/-- The settlement state of a JavaScript `Promise`: pending, resolved with
a value, or rejected with a reason. -/
inductive DeferredState (α : Type) (ε : Type) where
  | pending : DeferredState α ε
  | resolved : α → DeferredState α ε
  | rejected : ε → DeferredState α ε

/-- Calling `resolve(v)` settles a pending promise and is a no-op on an
already-settled one. -/
def tryResolve (d : DeferredState α ε) (v : α) : DeferredState α ε :=
  match d with
  | .pending => .resolved v
  | d => d

/-- Calling `reject(e)` settles a pending promise and is a no-op on an
already-settled one. -/
def tryReject (d : DeferredState α ε) (e : ε) : DeferredState α ε :=
  match d with
  | .pending => .rejected e
  | d => d

/-- Whether a deferred is still pending. -/
def DeferredState.isPending : DeferredState α ε → Bool
  | .pending => true
  | _ => false

/-- Whether a deferred has been rejected. -/
def DeferredState.isRejected : DeferredState α ε → Bool
  | .rejected _ => true
  | _ => false

/-! ## The `get` helper (src/rclone.js:244–254)

`get(url)` returns a promise whose executor calls `https.get(url, cb)`.
The callback registers listeners for the response's `data` and `end`
events only; **no listener is ever attached to the request's `error`
event**, and `reject` — although bound by the executor — is never called
anywhere in the function.  A transport failure therefore never reaches the
promise.  We model one fetch as a fold over the events the runtime
delivers; the unhandled transport-error event leaves the promise state
untouched (in the real runtime it crashes the process as an unhandled
`error` event — in no case does it reject the promise). -/

/-- Events observable during one `https.get` fetch.  Buffers are modelled
as byte lists. -/
inductive GetEvent where
  | responseData : List Nat → GetEvent
  | responseEnd : GetEvent
  | requestError : String → GetEvent

/-- State of one `get(url)` invocation: the accumulated `chunks` array and
the promise's settlement state (resolved with `Buffer.concat(chunks)`). -/
structure GetRun where
  chunks : List (List Nat)
  deferred : DeferredState (List Nat) String

/-- Initial state of `get`: nothing buffered, promise pending. -/
def getInit : GetRun := ⟨[], .pending⟩

/-- One event step of `get` (src/rclone.js:246–252): `data` pushes the
chunk, `end` resolves with the concatenation, and the request's `error`
event has no registered handler, so no handler code runs. -/
def getStep (s : GetRun) : GetEvent → GetRun
  | .responseData c => { s with chunks := s.chunks ++ [c] }
  | .responseEnd => { s with deferred := tryResolve s.deferred s.chunks.flatten }
  | .requestError _ => s

/-- Run one `get` invocation over a delivered event sequence. -/
def getRun (evs : List GetEvent) : GetRun := evs.foldl getStep getInit

/-! ## The promise-based invoker (src/rclone.js:73–97) -/

/-- A rejection reason of the promise API: either the spawn `error` event's
error object, or the concatenated standard-error bytes. -/
inductive RejectPayload where
  | errObj : String → RejectPayload
  | stderrBytes : List Nat → RejectPayload

/-- Events delivered to the handlers registered by `promises`. -/
inductive AggEvent where
  | procError : String → AggEvent
  | outData : List Nat → AggEvent
  | outEnd : AggEvent
  | errData : List Nat → AggEvent
  | errEnd : AggEvent

/-- State of one `promises(...)` invocation: the `stdout` and `stderr`
buffer arrays and the promise's settlement state. -/
structure AggRun where
  stdout : List (List Nat)
  stderr : List (List Nat)
  deferred : DeferredState (List Nat) RejectPayload

/-- Initial state of `promises`: both buffer arrays empty, promise
pending. -/
def aggInit : AggRun := ⟨[], [], .pending⟩

/-- One event step of `promises` (src/rclone.js:77–95): the subprocess
`error` event rejects with the error object; stdout `data` pushes onto the
stdout buffer; stdout `end` resolves with `Buffer.concat(stdout)`; stderr
`data` pushes onto the stderr buffer; stderr `end` rejects with
`Buffer.concat(stderr)` when anything was accumulated. -/
def aggStep (s : AggRun) : AggEvent → AggRun
  | .procError e => { s with deferred := tryReject s.deferred (.errObj e) }
  | .outData c => { s with stdout := s.stdout ++ [c] }
  | .outEnd => { s with deferred := tryResolve s.deferred s.stdout.flatten }
  | .errData c => { s with stderr := s.stderr ++ [c] }
  | .errEnd =>
    if s.stderr.isEmpty then s
    else { s with deferred := tryReject s.deferred (.stderrBytes s.stderr.flatten) }

/-- Run one `promises` invocation over a delivered event sequence. -/
def aggRun (evs : List AggEvent) : AggRun := evs.foldl aggStep aggInit

/-- The stdout `data` chunks occurring in an event sequence, in order. -/
def outChunks (evs : List AggEvent) : List (List Nat) :=
  evs.filterMap fun ev =>
    match ev with
    | .outData c => some c
    | _ => none

/-- The stderr `data` chunks occurring in an event sequence, in order. -/
def errChunks (evs : List AggEvent) : List (List Nat) :=
  evs.filterMap fun ev =>
    match ev with
    | .errData c => some c
    | _ => none

/-! ## The self-updater (src/rclone.js:103–144) -/

/-- The deferred work started by the non-delegating branches of
`api.selfupdate`: either the version check fetch or the archive download
(followed by extraction). -/
inductive DeferredAction where
  | checkVersion : String → DeferredAction
  | install : String → DeferredAction

/-- What `api.selfupdate` returns: the delegate branch returns the
`ChildProcess` produced by `spawn` (through `api`), every other branch
returns a promise performing the described fetch. -/
inductive SelfupdateReturn where
  | procHandle : SpawnCall → SelfupdateReturn
  | deferredOf : DeferredAction → SelfupdateReturn

/-- Whether a `selfupdate` return value is a deferred/future (a `Promise`)
rather than a live `ChildProcess` handle. -/
def SelfupdateReturn.isDeferred : SelfupdateReturn → Bool
  | .deferredOf _ => true
  | .procHandle _ => false

/-- Property lookup on an options object: the value stored under `k`, or
`undefined` when the key is absent. -/
def optLookup (entries : List (String × JValue)) (k : String) : JValue :=
  match entries.find? (fun kv => kv.1 == k) with
  | some kv => kv.2
  | none => .vUndefined

/-- Destructuring default (`const { x = d } = o`): the default applies
exactly when the looked-up value is `undefined`. -/
def destructureDefault (v dflt : JValue) : JValue :=
  match v with
  | .vUndefined => dflt
  | v => v

/-- The line logged by the check state's continuation
(src/rclone.js:121). -/
def selfupdateCheckLog (version : String) : String :=
  "The latest version is " ++ version

/-- `api.selfupdate` (src/rclone.js:103–144).  `platform` and `arch` are
the resolved release names, `exe` the resolved executable path and
`exeExists` the result of `existsSync(RCLONE_EXECUTABLE)`; `options` is
the property list of the options object. -/
def selfupdate (platform arch exe : String) (exeExists : Bool)
    (options : List (String × JValue)) : SelfupdateReturn :=
  let beta := destructureDefault (optLookup options "beta") (.vBool false)
  let stable := destructureDefault (optLookup options "stable")
    (.vBool (!jsTruthy beta))
  let version := optLookup options "version"
  let check := destructureDefault (optLookup options "check") (.vBool false)
  if exeExists then
    .procHandle (api exe [.vStr "selfupdate", .vObj options])
  else
    let baseUrl := if jsTruthy stable then "https://downloads.rclone.org"
      else "https://beta.rclone.org"
    let channel := if jsTruthy stable then "current" else "beta-latest"
    if jsTruthy check then
      .deferredOf (.checkVersion (baseUrl ++ "/version.txt"))
    else
      let archiveName := if jsTruthy version then
          jsToString version ++ "/rclone-" ++ jsToString version
        else "rclone-" ++ channel
      .deferredOf (.install
        (baseUrl ++ "/" ++ archiveName ++ "-" ++ platform ++ "-" ++ arch ++ ".zip"))

/-- Claim-side resolution of the `stable` option: its truthiness when
explicitly given, otherwise the negation of `beta`'s truthiness (`beta`
itself defaulting to `false`). -/
def specResolvedStable (options : List (String × JValue)) : Bool :=
  match optLookup options "stable" with
  | .vUndefined =>
    !jsTruthy (destructureDefault (optLookup options "beta") (.vBool false))
  | s => jsTruthy s

/-! ## Archive extraction (src/rclone.js:127–143) -/

/-- One entry of the downloaded zip archive: `name` is its base name,
`entryName` its full path inside the archive. -/
structure ZipEntry where
  name : String
  entryName : String
  deriving DecidableEq

/-- Filesystem-visible effects of extraction: `extractTo entryName dir
keepPath overwrite` is `zip.extractEntryTo`, `chmod path mode` is
`chmodSync`, `log line` is `console.log`. -/
inductive FsEffect where
  | extractTo : String → String → Bool → Bool → FsEffect
  | chmod : String → Nat → FsEffect
  | log : String → FsEffect
  deriving DecidableEq

/-- Whether `post` is a suffix of `s`, on the underlying character
lists. -/
def strEndsWith (s post : String) : Bool :=
  post.data.isSuffixOf s.data

/-- The regular-expression test `/rclone(\.exe)?$/.test(name)`: the
pattern is anchored only at the end (`$`) and nowhere else, so it accepts
any name whose suffix is `rclone` or `rclone.exe`. -/
def rcloneEntryTest (name : String) : Bool :=
  strEndsWith name "rclone" || strEndsWith name "rclone.exe"

/-- Replace the first occurrence of `pat` in a character list by
`repl`. -/
def listReplaceFirst : List Char → List Char → List Char → List Char
  | [], _, _ => []
  | c :: rest, pat, repl =>
    if pat.isPrefixOf (c :: rest) then repl ++ (c :: rest).drop pat.length
    else c :: listReplaceFirst rest pat repl

/-- JavaScript `String.prototype.replace` with a string pattern: replaces
the first occurrence only. -/
def replaceFirst (s pat repl : String) : String :=
  String.mk (listReplaceFirst s.data pat.data repl.data)

/-- The body of the extraction `forEach` (src/rclone.js:133–142) for one
entry: when the entry-name test passes, extract flattened
(`maintainEntryPath = false`, `overwrite = true`) into `RCLONE_DIR`, chmod
the default executable path to `0o755`, and log the entry's directory as
installed. -/
def extractEntryEffects (dirname platform : String) (e : ZipEntry) :
    List FsEffect :=
  if rcloneEntryTest e.name then
    [.extractTo e.entryName (RCLONE_DIR dirname) false true,
     .chmod (DEFAULT_RCLONE_EXECUTABLE dirname platform) 0o755,
     .log (replaceFirst e.entryName ("/" ++ e.name) "" ++ " is installed.")]
  else []

/-- The whole extraction loop over the archive's entries, in order. -/
def extractArchive (dirname platform : String) (entries : List ZipEntry) :
    List FsEffect :=
  entries.flatMap (extractEntryEffects dirname platform)

/-- The entry names extracted by a list of effects, in order. -/
def extractedNames (effs : List FsEffect) : List String :=
  effs.filterMap fun eff =>
    match eff with
    | .extractTo entryName _ _ _ => some entryName
    | _ => none

/-! ## Command surface (src/rclone.js:146–240) -/

/-- The subcommand catalog (src/rclone.js:146–214), verbatim. -/
def COMMANDS : List String :=
  ["about", "authorize", "backend", "cat", "check", "cleanup", "config",
   "config create", "config delete", "config disconnect", "config dump",
   "config edit", "config file", "config password", "config providers",
   "config reconnect", "config show", "config update", "config userinfo",
   "copy", "copyto", "copyurl", "cryptcheck", "cryptdecode", "dedupe",
   "delete", "deletefile", "genautocomplete", "genautocomplete bash",
   "genautocomplete fish", "genautocomplete zsh", "gendocs", "hashsum",
   "link", "listremotes", "ls", "lsd", "lsf", "lsjson", "lsl", "md5sum",
   "mkdir", "mount", "move", "moveto", "ncdu", "obscure", "purge", "rc",
   "rcat", "rcd", "rmdir", "rmdirs", "serve", "serve dlna", "serve ftp",
   "serve http", "serve restic", "serve sftp", "serve webdav", "settier",
   "sha1sum", "size", "sync", "touch", "tree", "version"]

/-- The direct entry point registered for a catalog name
(src/rclone.js:223–225): it calls `api(commandName, ...args)`, prepending
the whole name as one element. -/
def commandApi (exe name : String) (args : List JValue) : SpawnCall :=
  api exe (.vStr name :: args)

/-- The future-based entry point registered for a catalog name
(src/rclone.js:235–237): `promises(commandName, ...args)` spawns through
`api` with the same prepended name (src/rclone.js:75); this is the spawn
call it makes. -/
def commandPromises (exe name : String) (args : List JValue) : SpawnCall :=
  api exe (.vStr name :: args)

/-! ## Helper lemmas -/

/-- One flag entry contributes exactly the tokens of the spec's emission
table, appended to the accumulator. -/
theorem pushFlagTokens_eq_append (acc : List JValue) (k : String) (v : JValue) :
    pushFlagTokens acc k v = acc ++ specFlagTokens [(k, v)] := by
  cases v with
  | vBool b =>
    cases b with
    | false =>
      simp only [pushFlagTokens, specFlagTokens, isFalseLiteral, isBoolean,
        if_pos, if_true, List.flatMap_cons, List.flatMap_nil, List.append_nil]
      rfl
    | true => simp [pushFlagTokens, specFlagTokens, isFalseLiteral, isBoolean]
  | vStr s => simp [pushFlagTokens, specFlagTokens, isFalseLiteral, isBoolean]
  | vNum n => simp [pushFlagTokens, specFlagTokens, isFalseLiteral, isBoolean]
  | vNull => simp [pushFlagTokens, specFlagTokens, isFalseLiteral, isBoolean]
  | vUndefined => simp [pushFlagTokens, specFlagTokens, isFalseLiteral, isBoolean]
  | vArr xs => simp [pushFlagTokens, specFlagTokens, isFalseLiteral, isBoolean]
  | vObj es => simp [pushFlagTokens, specFlagTokens, isFalseLiteral, isBoolean]

/-- The `forEach` fold over the flag entries appends the spec's tokens for
every entry, in iteration order. -/
theorem foldl_pushFlagTokens_eq (entries : List (String × JValue))
    (acc : List JValue) :
    entries.foldl (fun a kv => pushFlagTokens a kv.1 kv.2) acc
      = acc ++ specFlagTokens entries := by
  induction entries generalizing acc with
  | nil => simp [specFlagTokens]
  | cons kv es ih =>
    rw [List.foldl_cons, ih, pushFlagTokens_eq_append]
    simp [specFlagTokens]

/-- When the last raw argument is a plain object, `apiArgs` removes it and
appends its flag tokens after the positionals. -/
theorem apiArgs_concat_obj (pos : List JValue)
    (entries : List (String × JValue)) :
    apiArgs (pos ++ [.vObj entries]) = pos ++ specFlagTokens entries := by
  unfold apiArgs
  rw [List.getLast?_concat, List.dropLast_concat]
  simpa [jsTruthy, hasObjectConstructor, objEntries] using
    foldl_pushFlagTokens_eq entries pos

/-- When the last raw argument is not a plain object, `apiArgs` keeps the
argument list unchanged. -/
theorem apiArgs_concat_nonobj (args : List JValue) (v : JValue)
    (h : hasObjectConstructor v = false) :
    apiArgs (args ++ [v]) = args ++ [v] := by
  unfold apiArgs
  rw [List.getLast?_concat, List.dropLast_concat]
  simp [h]

/-! ## Claim theorems -/

/-- C1: the claim states that `api.selfupdate` returns a deferred for
every options value, including the delegate state.  In fact, when an
executable already exists at the resolved location, the delegate branch
returns the `ChildProcess` produced by `spawn` through
`api("selfupdate", options)` — not a promise — even though the function's
own documentation declares `@returns {Promise}`.  This theorem evaluates
the code on that state: for every options object the delegate branch
yields a process handle (so `isDeferred` is `false`), and on the concrete
input `options = {}` the spawned call is `rclone selfupdate`. -/
theorem selfupdate_delegate_returns_child_process :
    (∀ platform arch exe options,
        (selfupdate platform arch exe true options).isDeferred = false ∧
        selfupdate platform arch exe true options
          = .procHandle (api exe [.vStr "selfupdate", .vObj options])) ∧
    selfupdate "linux" "amd64" "/m/bin/rclone" true []
      = .procHandle ⟨"/m/bin/rclone", [.vStr "selfupdate"]⟩ :=
  ⟨fun _ _ _ _ => ⟨rfl, rfl⟩, rfl⟩

/-- C2: the claim states `resolve("sunos", a).os = "solaris"` and
`resolve(p, "x32").arch = "386"`.  The `sunos` and `x32` cases of the two
`switch` statements lack a `break`, so control falls through into the
`win32` and `x64` case bodies: the code actually resolves `sunos` to
`"windows"` and `x32` to `"amd64"`, overwriting the just-assigned
`"solaris"`/`"386"`. -/
theorem platform_arch_switch_fallthrough :
    resolvePlatform "sunos" = "windows" ∧ resolveArch "x32" = "amd64" :=
  ⟨rfl, rfl⟩

/-- C5: for every flag entry, in iteration order, `value === false` emits
exactly the single token `--no-<key>`, `value === true` emits exactly the
single token `--<key>`, and any non-boolean value emits `--<key>` followed
by `String(value)`; the marshalled result is the positional arguments
followed by these flag tokens. -/
theorem flag_marshaller_emission :
    (∀ acc k, pushFlagTokens acc k (.vBool false)
        = acc ++ [.vStr ("--no-" ++ k)]) ∧
    (∀ acc k, pushFlagTokens acc k (.vBool true)
        = acc ++ [.vStr ("--" ++ k)]) ∧
    (∀ acc k v, isBoolean v = false →
        pushFlagTokens acc k v
          = acc ++ [.vStr ("--" ++ k), .vStr (jsToString v)]) ∧
    (∀ pos entries,
        apiArgs (pos ++ [.vObj entries]) = pos ++ specFlagTokens entries) := by
  refine ⟨?_, ?_, ?_, apiArgs_concat_obj⟩
  · intro acc k
    rw [pushFlagTokens_eq_append]
    simp only [specFlagTokens, List.flatMap_cons, List.flatMap_nil,
      List.append_nil]
  · intro acc k
    rw [pushFlagTokens_eq_append]
    rfl
  · intro acc k v h
    rw [pushFlagTokens_eq_append]
    cases v <;> simp_all [specFlagTokens, isBoolean]

/-- Witness for C5: concrete emissions — `{"dry-run": false}` gives
`--no-dry-run`, `{"progress": true}` gives `--progress`, `{"max-depth": 1}`
gives `--max-depth 1`, and a full call `ls source: {"max-depth": 1}`
marshals to `ls source: --max-depth 1`. -/
theorem flag_marshaller_emission_witness :
    pushFlagTokens [] "dry-run" (.vBool false) = [.vStr "--no-dry-run"] ∧
    pushFlagTokens [] "progress" (.vBool true) = [.vStr "--progress"] ∧
    pushFlagTokens [] "max-depth" (.vNum 1)
      = [.vStr "--max-depth", .vStr "1"] ∧
    apiArgs [.vStr "ls", .vStr "source:", .vObj [("max-depth", .vNum 1)]]
      = [.vStr "ls", .vStr "source:", .vStr "--max-depth", .vStr "1"] := by
  refine ⟨?_, ?_, ?_, ?_⟩
  · exact (flag_marshaller_emission.1 [] "dry-run").trans rfl
  · exact (flag_marshaller_emission.2.1 [] "progress").trans rfl
  · exact (flag_marshaller_emission.2.2.1 [] "max-depth" (.vNum 1) rfl).trans
      (by simp only [jsToString]; rfl)
  · exact (flag_marshaller_emission.2.2.2 [.vStr "ls", .vStr "source:"]
      [("max-depth", .vNum 1)]).trans
      (by simp only [specFlagTokens, List.flatMap_cons, List.flatMap_nil,
            List.append_nil, jsToString]
          rfl)

/-- C6: the marshaller inspects only the last element of the raw argument
list: a plain object there is removed and expanded as flag tokens, while
any other value (null, array, string, number, …) is kept in place and no
flag tokens are appended. -/
theorem marshaller_last_element_dispatch :
    (∀ args entries,
        apiArgs (args ++ [.vObj entries]) = args ++ specFlagTokens entries) ∧
    (∀ args v, hasObjectConstructor v = false →
        apiArgs (args ++ [v]) = args ++ [v]) :=
  ⟨apiArgs_concat_obj, apiArgs_concat_nonobj⟩

/-- Witness for C6: a trailing `null`, array, string and number are all
kept as positional arguments with no flag tokens appended, while a
trailing object is expanded. -/
theorem marshaller_last_element_dispatch_witness :
    apiArgs [.vStr "ls", .vNull] = [.vStr "ls", .vNull] ∧
    apiArgs [.vStr "ls", .vArr []] = [.vStr "ls", .vArr []] ∧
    apiArgs [.vStr "ls", .vStr "source:"] = [.vStr "ls", .vStr "source:"] ∧
    apiArgs [.vStr "ls", .vNum 2] = [.vStr "ls", .vNum 2] ∧
    apiArgs [.vStr "ls", .vObj [("human-readable", .vBool true)]]
      = [.vStr "ls", .vStr "--human-readable"] := by
  refine ⟨?_, ?_, ?_, ?_, ?_⟩
  · exact marshaller_last_element_dispatch.2 [.vStr "ls"] .vNull rfl
  · exact marshaller_last_element_dispatch.2 [.vStr "ls"] (.vArr []) rfl
  · exact marshaller_last_element_dispatch.2 [.vStr "ls"] (.vStr "source:") rfl
  · exact marshaller_last_element_dispatch.2 [.vStr "ls"] (.vNum 2) rfl
  · exact (marshaller_last_element_dispatch.1 [.vStr "ls"]
      [("human-readable", .vBool true)]).trans rfl

/-- A `get` run whose deferred is not rejected stays unrejected under any
further events: no step of `get` ever calls `reject`. -/
theorem getRun_never_rejected_aux (evs : List GetEvent) (s : GetRun)
    (h : s.deferred.isRejected = false) :
    ((evs.foldl getStep s).deferred).isRejected = false := by
  induction evs generalizing s with
  | nil => exact h
  | cons ev evs ih =>
    rw [List.foldl_cons]
    apply ih
    cases ev with
    | responseData c => exact h
    | responseEnd =>
      show (tryResolve s.deferred s.chunks.flatten).isRejected = false
      cases hd : s.deferred with
      | pending => rfl
      | resolved v => rfl
      | rejected e => rw [hd] at h; simp [DeferredState.isRejected] at h
    | requestError e => exact h

/-- C3: the claim states that a failed network transfer rejects the
returned deferred with the underlying transport error.  In fact `get`
(src/rclone.js:244–254) registers listeners only for the response's `data`
and `end` events and never calls the `reject` it binds; no listener is
attached to the request's `error` event, so a transport failure never
settles the promise.  Evaluated at a failing input — a fetch whose only
delivered event is the transport error — the deferred is still pending,
and in general no event sequence whatsoever can reject it. -/
theorem get_transport_error_never_rejects :
    (getRun [.requestError "getaddrinfo ENOTFOUND downloads.rclone.org"]).deferred
        = DeferredState.pending ∧
    (∀ evs, ((getRun evs).deferred).isRejected = false) :=
  ⟨rfl, fun evs => getRun_never_rejected_aux evs getInit rfl⟩

/-- The stdout chunks of a single event. -/
theorem outChunks_cons (ev : AggEvent) (evs : List AggEvent) :
    outChunks (ev :: evs) = outChunks [ev] ++ outChunks evs := by
  cases ev <;> simp [outChunks]

/-- The stderr chunks of a single event. -/
theorem errChunks_cons (ev : AggEvent) (evs : List AggEvent) :
    errChunks (ev :: evs) = errChunks [ev] ++ errChunks evs := by
  cases ev <;> simp [errChunks]

/-- One aggregator step appends exactly the event's stdout chunk (if any)
to the stdout buffer. -/
theorem aggStep_stdout (s : AggRun) (ev : AggEvent) :
    (aggStep s ev).stdout = s.stdout ++ outChunks [ev] := by
  cases ev with
  | procError e => simp [aggStep, outChunks]
  | outData c => simp [aggStep, outChunks]
  | outEnd => simp [aggStep, outChunks]
  | errData c => simp [aggStep, outChunks]
  | errEnd =>
    simp only [aggStep]
    split <;> simp [outChunks]

/-- One aggregator step appends exactly the event's stderr chunk (if any)
to the stderr buffer. -/
theorem aggStep_stderr (s : AggRun) (ev : AggEvent) :
    (aggStep s ev).stderr = s.stderr ++ errChunks [ev] := by
  cases ev with
  | procError e => simp [aggStep, errChunks]
  | outData c => simp [aggStep, errChunks]
  | outEnd => simp [aggStep, errChunks]
  | errData c => simp [aggStep, errChunks]
  | errEnd =>
    simp only [aggStep]
    split <;> simp [errChunks]

/-- Running the aggregator accumulates the delivered stdout and stderr
chunks, in order, on top of the starting buffers. -/
theorem aggRun_buffers_aux (evs : List AggEvent) (s : AggRun) :
    (evs.foldl aggStep s).stdout = s.stdout ++ outChunks evs ∧
    (evs.foldl aggStep s).stderr = s.stderr ++ errChunks evs := by
  induction evs generalizing s with
  | nil => simp [outChunks, errChunks]
  | cons ev evs ih =>
    rw [List.foldl_cons]
    obtain ⟨h1, h2⟩ := ih (aggStep s ev)
    refine ⟨?_, ?_⟩
    · rw [h1, aggStep_stdout]
      conv_rhs => rw [outChunks_cons ev evs]
      rw [List.append_assoc]
    · rw [h2, aggStep_stderr]
      conv_rhs => rw [errChunks_cons ev evs]
      rw [List.append_assoc]

/-- C7: for every future-based invocation, stdout and stderr chunks are
accumulated in order; from a pending state, stdout `end` resolves with the
concatenation of all accumulated stdout chunks, stderr `end` with a
non-empty accumulation rejects with the concatenated stderr bytes, and the
`error` event rejects with the error object; once settled, any further
settlement attempt is a no-op (first settlement wins). -/
theorem promises_settlement_behaviour :
    (∀ evs, (aggRun evs).stdout = outChunks evs ∧
        (aggRun evs).stderr = errChunks evs) ∧
    (∀ s, s.deferred = .pending →
        (aggStep s .outEnd).deferred = .resolved s.stdout.flatten) ∧
    (∀ s, s.deferred = .pending → s.stderr.isEmpty = false →
        (aggStep s .errEnd).deferred
          = .rejected (.stderrBytes s.stderr.flatten)) ∧
    (∀ s e, s.deferred = .pending →
        (aggStep s (.procError e)).deferred = .rejected (.errObj e)) ∧
    (∀ s ev, s.deferred.isPending = false →
        (aggStep s ev).deferred = s.deferred) := by
  refine ⟨?_, ?_, ?_, ?_, ?_⟩
  · intro evs
    have h := aggRun_buffers_aux evs aggInit
    simpa [aggRun, aggInit] using h
  · intro s h
    simp [aggStep, tryResolve, h]
  · intro s h h2
    simp [aggStep, h2, tryReject, h]
  · intro s e h
    simp [aggStep, tryReject, h]
  · intro s ev h
    cases hd : s.deferred with
    | pending => rw [hd] at h; simp [DeferredState.isPending] at h
    | resolved v =>
      cases ev <;>
        (simp [aggStep, tryResolve, tryReject, hd]
         try (split <;> simp [hd]))
    | rejected e =>
      cases ev <;>
        (simp [aggStep, tryResolve, tryReject, hd]
         try (split <;> simp [hd]))

/-- Witness for C7: a run delivering one stdout chunk accumulates it;
stdout `end` from pending resolves with the buffered bytes; stderr `end`
with the buffered bytes `"boom"` rejects with exactly those bytes; a spawn
error rejects with the error object; and a settlement attempt after
resolution is a no-op. -/
theorem promises_settlement_behaviour_witness :
    (aggRun [.outData [104, 105], .outEnd]).stdout = [[104, 105]] ∧
    (aggStep ⟨[[104, 105]], [], .pending⟩ .outEnd).deferred
      = .resolved [104, 105] ∧
    (aggStep ⟨[], [[98, 111, 111, 109]], .pending⟩ .errEnd).deferred
      = .rejected (.stderrBytes [98, 111, 111, 109]) ∧
    (aggStep ⟨[], [], .pending⟩ (.procError "spawn ENOENT")).deferred
      = .rejected (.errObj "spawn ENOENT") ∧
    (aggStep ⟨[], [], .resolved [104]⟩ .errEnd).deferred = .resolved [104] := by
  refine ⟨?_, ?_, ?_, ?_, ?_⟩
  · exact (promises_settlement_behaviour.1
      [.outData [104, 105], .outEnd]).1.trans rfl
  · exact (promises_settlement_behaviour.2.1
      ⟨[[104, 105]], [], .pending⟩ rfl).trans rfl
  · exact (promises_settlement_behaviour.2.2.1
      ⟨[], [[98, 111, 111, 109]], .pending⟩ rfl rfl).trans rfl
  · exact promises_settlement_behaviour.2.2.2.1 ⟨[], [], .pending⟩ "spawn ENOENT" rfl
  · exact promises_settlement_behaviour.2.2.2.2 ⟨[], [], .resolved [104]⟩ .errEnd rfl

/-- The truthiness of the destructured `stable` option equals the
claim-side resolution: explicit value when given, otherwise the negation
of `beta`. -/
theorem specResolvedStable_eq (options : List (String × JValue)) :
    jsTruthy (destructureDefault (optLookup options "stable")
        (.vBool (!jsTruthy
          (destructureDefault (optLookup options "beta") (.vBool false)))))
      = specResolvedStable options := by
  cases h : optLookup options "stable" <;>
    simp [destructureDefault, specResolvedStable, h, jsTruthy]

/-- C8: when no executable exists at the resolved location and
`options.check` is `true`, the installer's returned deferred performs the
fetch of `{baseUrl}/version.txt` — with `baseUrl` the stable download host
exactly when the resolved `stable` flag (defaulting to the negation of
`beta`) is true, and the beta host otherwise — and nothing else: the
return is the terminal check action, not a download, install or delegate;
the fetched version text is reported with the check state's log line. -/
theorem selfupdate_check_state (platform arch exe : String)
    (options : List (String × JValue))
    (hcheck : optLookup options "check" = .vBool true) :
    selfupdate platform arch exe false options
      = .deferredOf (.checkVersion
          ((if specResolvedStable options then "https://downloads.rclone.org"
            else "https://beta.rclone.org") ++ "/version.txt")) ∧
    (∀ v, selfupdateCheckLog v = "The latest version is " ++ v) := by
  refine ⟨?_, fun _ => rfl⟩
  rw [selfupdate, hcheck, ← specResolvedStable_eq options]
  simp [destructureDefault, jsTruthy]

/-- Witness for C8: with `options = {check: true}` and no executable
present, the self-updater's deferred fetches the stable host's
`version.txt` (`stable` defaults to `true` because `beta` defaults to
`false`). -/
theorem selfupdate_check_state_witness :
    selfupdate "linux" "amd64" "/m/bin/rclone" false [("check", .vBool true)]
      = .deferredOf
          (.checkVersion "https://downloads.rclone.org/version.txt") := by
  have h := selfupdate_check_state "linux" "amd64" "/m/bin/rclone"
    [("check", .vBool true)] rfl
  exact h.1.trans (by rfl)

/-- C9: calling the direct API with zero arguments does not produce an
empty argument vector: `args.pop()` yields `undefined`, which is classified
as a non-mapping and pushed back, so `spawn` receives the one-element
argument vector `[undefined]`. -/
theorem api_zero_args_undefined (exe : String) :
    (api exe []).args = [JValue.vUndefined] ∧ (api exe []).args.length = 1 :=
  ⟨rfl, rfl⟩

/-- `extractedNames` distributes over effect-list concatenation. -/
theorem extractedNames_append (a b : List FsEffect) :
    extractedNames (a ++ b) = extractedNames a ++ extractedNames b := by
  simp [extractedNames, List.filterMap_append]

/-- C4 counterexample: the claim says only entries whose base name is
exactly `rclone` or `rclone.exe` are extracted, and no entry with a name
merely ending in `rclone`.  The archive entry with base name `xrclone` —
equal to neither — is nevertheless extracted, because the test
`/rclone(\.exe)?$/` is anchored only at the end. -/
theorem extract_exact_base_name_counterexample :
    (("xrclone" == "rclone") || ("xrclone" == "rclone.exe")) = false ∧
    extractedNames (extractArchive "/m" "osx" [⟨"xrclone", "pkg/xrclone"⟩])
      = ["pkg/xrclone"] := by
  constructor
  · rfl
  · have : rcloneEntryTest "xrclone" = true := by decide
    simp [extractArchive, extractEntryEffects, extractedNames, this]

/-- C4 as amended: exactly the archive entries whose base name **ends
with** `rclone` or `rclone.exe` are extracted, flattened (no internal
archive directory structure, overwriting) into the install directory, and
after each such extraction the default executable path is marked
executable with mode `0o755` (rwxr-xr-x). -/
theorem extract_suffix_match_flattened_chmod (dirname platform : String)
    (entries : List ZipEntry) :
    extractedNames (extractArchive dirname platform entries)
      = (entries.filter fun e =>
          strEndsWith e.name "rclone" || strEndsWith e.name "rclone.exe").map
            ZipEntry.entryName ∧
    (∀ entryName dir keepPath overwrite,
        FsEffect.extractTo entryName dir keepPath overwrite
            ∈ extractArchive dirname platform entries →
        dir = RCLONE_DIR dirname ∧ keepPath = false ∧ overwrite = true) ∧
    (∀ e, e ∈ entries → rcloneEntryTest e.name = true →
        FsEffect.chmod (DEFAULT_RCLONE_EXECUTABLE dirname platform) 0o755
          ∈ extractArchive dirname platform entries) := by
  refine ⟨?_, ?_, ?_⟩
  · induction entries with
    | nil => simp [extractArchive, extractedNames]
    | cons e es ih =>
      rw [extractArchive, List.flatMap_cons, extractedNames_append]
      by_cases h : rcloneEntryTest e.name
      · rw [List.filter_cons_of_pos (by simpa [rcloneEntryTest] using h)]
        simp only [extractEntryEffects, h, if_true, List.map_cons]
        rw [show extractedNames
            [.extractTo e.entryName (RCLONE_DIR dirname) false true,
             .chmod (DEFAULT_RCLONE_EXECUTABLE dirname platform) 0o755,
             .log (replaceFirst e.entryName ("/" ++ e.name) ""
               ++ " is installed.")] = [e.entryName] from rfl]
        rw [← extractArchive]
        exact congrArg _ ih
      · rw [List.filter_cons_of_neg (by simpa [rcloneEntryTest] using h)]
        have hne : extractEntryEffects dirname platform e = [] := by
          rw [extractEntryEffects, if_neg h]
        rw [hne, show extractedNames [] = [] from rfl, List.nil_append,
          ← extractArchive]
        exact ih
  · intro entryName dir keepPath overwrite h
    rw [extractArchive, List.mem_flatMap] at h
    obtain ⟨e, he, heff⟩ := h
    rw [extractEntryEffects] at heff
    split at heff
    · simp only [List.mem_cons, List.not_mem_nil, or_false] at heff
      rcases heff with h1 | h1 | h1
      · obtain ⟨-, h2, h3, h4⟩ := FsEffect.extractTo.inj h1
        exact ⟨h2, h3, h4⟩
      · exact absurd h1 (by simp)
      · exact absurd h1 (by simp)
    · exact absurd heff (List.not_mem_nil _)
  · intro e he ht
    rw [extractArchive, List.mem_flatMap]
    exact ⟨e, he, by simp [extractEntryEffects, ht]⟩

/-- Witness for C4 (amended): from an archive holding
`rclone-v1.2.3-osx-amd64/rclone` and a `README.txt`, exactly the `rclone`
entry is extracted and the default executable path is chmodded to
`0o755`. -/
theorem extract_suffix_match_flattened_chmod_witness :
    extractedNames (extractArchive "/m" "osx"
        [⟨"rclone", "rclone-v1.2.3-osx-amd64/rclone"⟩,
         ⟨"README.txt", "rclone-v1.2.3-osx-amd64/README.txt"⟩])
      = ["rclone-v1.2.3-osx-amd64/rclone"] ∧
    FsEffect.chmod "/m/bin/rclone" 0o755
      ∈ extractArchive "/m" "osx"
          [⟨"rclone", "rclone-v1.2.3-osx-amd64/rclone"⟩,
           ⟨"README.txt", "rclone-v1.2.3-osx-amd64/README.txt"⟩] := by
  have h := extract_suffix_match_flattened_chmod "/m" "osx"
    [⟨"rclone", "rclone-v1.2.3-osx-amd64/rclone"⟩,
     ⟨"README.txt", "rclone-v1.2.3-osx-amd64/README.txt"⟩]
  refine ⟨h.1.trans ?_, ?_⟩
  · decide
  · have hm : FsEffect.chmod (DEFAULT_RCLONE_EXECUTABLE "/m" "osx") 0o755
        = FsEffect.chmod "/m/bin/rclone" 0o755 := rfl
    have := h.2.2 ⟨"rclone", "rclone-v1.2.3-osx-amd64/rclone"⟩
      (by simp) (by decide)
    rwa [hm] at this

/-- For a non-empty tail, `apiArgs` leaves the head untouched: the flag
inspection looks only at the last element. -/
theorem apiArgs_cons_of_ne_nil (x : JValue) (args : List JValue)
    (h : args ≠ []) : apiArgs (x :: args) = x :: apiArgs args := by
  obtain ⟨a, as, rfl⟩ := List.exists_cons_of_ne_nil h
  rw [apiArgs, apiArgs, List.getLast?_cons_cons, List.dropLast_cons₂]
  by_cases hc : jsTruthy (((a :: as).getLast?).getD JValue.vUndefined)
      && hasObjectConstructor (((a :: as).getLast?).getD JValue.vUndefined)
  · rw [if_pos hc, if_pos hc, foldl_pushFlagTokens_eq, foldl_pushFlagTokens_eq,
      List.cons_append]
  · rw [if_neg hc, if_neg hc, List.cons_append]

/-- The head of a marshalled argument vector whose first raw argument is
not a plain object is that first argument itself. -/
theorem apiArgs_cons_head (x : JValue) (hx : hasObjectConstructor x = false)
    (args : List JValue) : (apiArgs (x :: args)).head? = some x := by
  cases args with
  | nil =>
    rw [show apiArgs [x]
        = if jsTruthy x && hasObjectConstructor x
            then (objEntries x).foldl (fun a kv => pushFlagTokens a kv.1 kv.2) []
            else [] ++ [x] from rfl]
    simp [hx]
  | cons a as =>
    rw [apiArgs_cons_of_ne_nil x (a :: as) (by simp)]
    rfl

/-- C10: for every name in the subcommand catalog — multi-word names like
`config create` and `serve http` included — both the direct and the
future-based registered entry points prepend the entire name as a single
element of the argument vector, not one token per word: the spawned argv's
head is the whole name, and for a non-empty tail the rest is the marshalled
remaining arguments. -/
theorem command_surface_multiword_single_token (exe name : String)
    (args : List JValue) (h : name ∈ COMMANDS) :
    (commandApi exe name args).args.head? = some (.vStr name) ∧
    (commandPromises exe name args).args.head? = some (.vStr name) ∧
    (args.isEmpty = false →
      (commandApi exe name args).args = .vStr name :: apiArgs args ∧
      (commandPromises exe name args).args = .vStr name :: apiArgs args) := by
  refine ⟨apiArgs_cons_head (.vStr name) rfl args,
    apiArgs_cons_head (.vStr name) rfl args, ?_⟩
  intro ha
  cases args with
  | nil => simp at ha
  | cons a as =>
    have he := apiArgs_cons_of_ne_nil (.vStr name) (a :: as) (by simp)
    exact ⟨he, he⟩

/-- Witness for C10: `config create` and `serve http` are catalog names,
and the registered entry points pass them as one argv element containing a
space. -/
theorem command_surface_multiword_single_token_witness :
    (commandApi "/m/bin/rclone" "config create"
        [.vStr "myremote", .vStr "drive"]).args
      = [.vStr "config create", .vStr "myremote", .vStr "drive"] ∧
    (commandPromises "/m/bin/rclone" "serve http"
        [.vStr "remote:path"]).args.head? = some (.vStr "serve http") := by
  have h1 := command_surface_multiword_single_token "/m/bin/rclone"
    "config create" [.vStr "myremote", .vStr "drive"] (by decide)
  have h2 := command_surface_multiword_single_token "/m/bin/rclone"
    "serve http" [.vStr "remote:path"] (by decide)
  exact ⟨((h1.2.2 rfl).1).trans (by rfl), h2.2.1⟩

end RcloneJS
